import Mathlib

/-!
Shallow embedding of `src/slogging/logging.go` (package `slogging`), a
structured-logging facade over `github.com/rs/zerolog` and
`github.com/natefinch/lumberjack`.

Modelling conventions:
* Go `context.Context` is the inductive `Slogging.Context`: an immutable chain
  of key/value nodes.  `context.WithValue` is `Context.withValue`; zerolog's
  private context key (`ctxKey{}` in zerolog's `context.go`) can only ever hold
  a `*zerolog.Logger`, so those nodes are the dedicated constructor
  `Context.withLogger`.  A nil `context.Context` is `none : Option Context`.
* Go `any` values stored in contexts or emitted as log fields are the closed
  scalar type `GoVal` (nil, string, int, bool, error).
* A `zerolog.Logger` is modelled by the data the claims observe: its level
  (`zerolog` levels as integers: trace = -1, debug = 0, info = 1, warn = 2,
  error = 3, fatal = 4, panic = 5, nolevel = 6, disabled = 7) and its bound
  field list (`zerolog` appends fields to an internal buffer; `Fields` on a
  `map[string]any` appends the entries in sorted key order).
* The process-wide global `log.Logger` is passed explicitly as a `ZLogger`
  argument named `g` wherever the Go code reads it.
* Machine integers (`int`) are `Int`; none of the modelled arithmetic
  (`max`, level comparisons) can overflow on the claims' inputs.
-/

namespace Slogging

/-- A Go `any` value, restricted to the loggable scalar kinds the repository
stores in contexts and log fields. `nilv` is Go's untyped `nil`. -/
inductive GoVal where
  | nilv : GoVal
  | str : String → GoVal
  | int : Int → GoVal
  | boolv : Bool → GoVal
  | errv : String → GoVal
deriving DecidableEq, Repr

/-- Predicate `GoVal.isStr v` holds exactly when the dynamic type of `v` is `string`,
i.e. when a Go type assertion `v.(string)` succeeds. -/
def GoVal.isStr : GoVal → Bool
  | .str _ => true
  | _ => false

/-- A context key, tagged with its Go dynamic type: `goStr` is a plain untyped
string constant (the legacy keys `X-Request-ID`, `api_id`, `x-operator` used by
`New`), `slog` is the package-private `type ctxKey string` (the keys
`logger`, `request_id`, `operator_name`, `role`, `trace_id`, `api_id`,
`ip_address`).  In Go these dynamic types are distinct, so `goStr s ≠ slog s`. -/
inductive CtxKey where
  | goStr : String → CtxKey
  | slog : String → CtxKey
deriving DecidableEq, Repr

/-- A `zerolog.Logger` as observed by this repository: its level and the
fields bound to it (in append order; `zerolog` writes bound fields to an
internal buffer, later duplicates appearing after earlier ones). -/
structure ZLogger where
  level : Int
  fields : List (String × GoVal)
deriving DecidableEq, Repr

/-- A Go `context.Context` chain.  `background` is `context.Background()`;
`withValue` is `context.WithValue(parent, key, val)`; `withLogger` is
`context.WithValue(parent, zerologCtxKey, &l)` — the only values ever stored
under zerolog's private key are `*zerolog.Logger`s. -/
inductive Context where
  | background : Context
  | withValue : Context → CtxKey → GoVal → Context
  | withLogger : Context → ZLogger → Context
deriving DecidableEq, Repr

/-- Models `ctx.Value(key)` for a non-zerolog key: walk the chain from the newest
node; zerolog-logger nodes carry a different (private) key, so they are
skipped.  Returns `none` for Go's `nil` result at the root. -/
def Context.value : Context → CtxKey → Option GoVal
  | .background, _ => none
  | .withValue parent k v, key => if k = key then some v else parent.value key
  | .withLogger parent _, key => parent.value key

/-- Models `ctx.Value(zerologCtxKey)`: the nearest logger stored by
`zerolog.Logger.WithContext`, if any. -/
def Context.zerologLogger : Context → Option ZLogger
  | .background => none
  | .withValue parent _ _ => parent.zerologLogger
  | .withLogger _ l => some l

/-- zerolog's package-level `disabledLogger` (`zerolog/context.go`): a logger
whose level is `Disabled` (7) and which therefore emits nothing. -/
def disabledLogger : ZLogger := ⟨7, []⟩

/-- Models `log.Ctx(ctx)` = `zerolog.Ctx(ctx)` (`zerolog/context.go`): the logger
stored in `ctx` if any; otherwise `zerolog.DefaultContextLogger` (never set by
this repository, hence nil); otherwise the package `disabledLogger`.  The
result is a `*zerolog.Logger` that is NEVER nil — `Option` models the nilable
pointer, and this function never returns `none`. -/
def logCtx (ctx : Context) : Option ZLogger :=
  match ctx.zerologLogger with
  | some l => some l
  | none => some disabledLogger

/-- Models `zerolog.Logger.WithContext(ctx)` (`zerolog/context.go`): do not store a
disabled logger into a context that has no logger yet; otherwise store the
receiver under zerolog's private key. -/
def ZLogger.withContext (l : ZLogger) (ctx : Context) : Context :=
  if ctx.zerologLogger = none ∧ l.level = 7 then ctx
  else Context.withLogger ctx l

/-- Models `l.With().Fields(m).Logger()` where `m` is a `map[string]any` given as an
assoc list already in sorted key order (zerolog's `appendFields` sorts the map
keys before appending). -/
def ZLogger.withFields (l : ZLogger) (m : List (String × GoVal)) : ZLogger :=
  ⟨l.level, l.fields ++ m⟩

/-- zerolog's emission test (`Logger.should`): an event at level `evLvl` fired
on a logger whose own level is `loggerLvl` while the global level is
`globalLvl` is written iff `loggerLvl ≤ evLvl` and `globalLvl ≤ evLvl`. -/
def shouldEmit (evLvl loggerLvl globalLvl : Int) : Bool :=
  (decide (loggerLvl ≤ evLvl)) && (decide (globalLvl ≤ evLvl))

/-- The result of `From`: either the address of the process-wide global
`log.Logger` (`&log.Logger`), or a pointer to a logger stored in the
context. -/
inductive FromResult where
  | globalRef : FromResult
  | ctxLogger : ZLogger → FromResult
deriving DecidableEq, Repr

/-- Resolve a `FromResult` against the current global logger `g`. -/
def FromResult.resolve (g : ZLogger) : FromResult → ZLogger
  | .globalRef => g
  | .ctxLogger l => l

/-- Models `From(ctx)` (logging.go:164-176).  A nil context returns `&log.Logger`.
Otherwise `l := log.Ctx(ctx)` is tested against nil — but `log.Ctx` never
returns nil (it falls back to zerolog's `disabledLogger`), so the first branch
always fires.  The legacy compat lookup of `ctxLoggerKey` and the final global
fallback are dead code: `logCtx` never returns `none`, and no code in the
repository ever stores a `*zerolog.Logger` under `ctxKey("logger")`, so the
`none` arm (returning the global) is unreachable. -/
def From : Option Context → FromResult
  | none => .globalRef
  | some ctx =>
    match logCtx ctx with
    | some l => .ctxLogger l
    | none => .globalRef

/-- The legacy `Logger` struct (logging.go:14-18). -/
structure Logger where
  requestID : String
  apiID : String
  operator : String
deriving DecidableEq, Repr

/-- Models `New(ctx)` (logging.go:26-35): read the three legacy keys (untyped string
constants `X-Request-ID`, `api_id`, `x-operator`) off the context with a
defaulting type assertion. -/
def New (ctx : Context) : Logger :=
  { requestID := match ctx.value (CtxKey.goStr "X-Request-ID") with
      | some (GoVal.str v) => v
      | _ => ""
    apiID := match ctx.value (CtxKey.goStr "api_id") with
      | some (GoVal.str v) => v
      | _ => ""
    operator := match ctx.value (CtxKey.goStr "x-operator") with
      | some (GoVal.str v) => v
      | _ => "" }

/-- The fields `Logger.Info` (logging.go:37-42) attaches to the emitted event,
in call order: `Str(XRequestID, …).Str(APIID, …).Str(XOperator, …)`. -/
def Logger.InfoFields (l : Logger) : List (String × GoVal) :=
  [("X-Request-ID", GoVal.str l.requestID),
   ("api_id", GoVal.str l.apiID),
   ("x-operator", GoVal.str l.operator)]

/-- The fields `Logger.Error` (logging.go:44-50) attaches to the emitted
event: the same three `Str` fields followed by `Err(err)`, which zerolog
renders under the key `error`. -/
def Logger.ErrorFields (l : Logger) (err : String) : List (String × GoVal) :=
  l.InfoFields ++ [("error", GoVal.errv err)]

/-- The `Options` struct (logging.go:52-67).  `extraWriter` models whether the
`ExtraWriter io.Writer` field is non-nil. -/
structure Options where
  service : String
  environment : String
  pretty : Bool
  level : String
  withCaller : Bool
  sampleEvery : Int
  filePath : String
  maxSizeMB : Int
  maxBackups : Int
  maxAgeDays : Int
  compress : Bool
  alsoStdout : Bool
  extraWriter : Bool
deriving DecidableEq, Repr

/-- An output sink wired up by `Init`: the lumberjack rotating file (with the
parameters handed to `lumberjack.Logger`), the process standard output, or the
caller-supplied extra writer. -/
inductive Sink where
  | rotatingFile (filename : String) (maxSize maxBackups maxAge : Int)
      (compress : Bool) : Sink
  | stdout : Sink
  | extra : Sink
deriving DecidableEq, Repr

/-- The writer construction of `Init` (logging.go:92-114).
`zerolog.MultiLevelWriter(ws...)` duplicates every write to each of its
writers, so the built writer is faithfully represented by the list of sinks it
fans out to.  Note `ExtraWriter` is consulted only inside the
`opt.FilePath != ""` branch. -/
def initSinks (opt : Options) : List Sink :=
  if opt.filePath ≠ "" then
    let r := Sink.rotatingFile opt.filePath (max 1 opt.maxSizeMB)
      (max 0 opt.maxBackups) (max 0 opt.maxAgeDays) opt.compress
    if opt.alsoStdout && opt.extraWriter then [r, Sink.stdout, Sink.extra]
    else if opt.alsoStdout then [r, Sink.stdout]
    else if opt.extraWriter then [r, Sink.extra]
    else [r]
  else
    [Sink.stdout]

/-- Models `strings.EqualFold` restricted to the ASCII level names compared by
`zerolog.ParseLevel` (on ASCII, Unicode simple folding is case-insensitive
comparison). -/
def equalFold (s t : String) : Bool :=
  s.data.map Char.toLower == t.data.map Char.toLower

/-- Models `strconv.Atoi`, as observed through `ParseLevel`: an optional sign
followed by at least one decimal digit.  (Go's `Atoi` additionally errors on
64-bit overflow; here the overflowing value is returned exactly and is then
rejected by `ParseLevel`'s `-1..7` bounds check, giving the same error
outcome.) -/
def digitsToNat : List Char → Option Nat
  | [] => none
  | cs =>
    if cs.all Char.isDigit then
      some (cs.foldl (fun n c => 10 * n + (c.toNat - 48)) 0)
    else none

/-- See `digitsToNat`. -/
def goAtoi (s : String) : Option Int :=
  match s.toList with
  | [] => none
  | '+' :: rest => (digitsToNat rest).map Int.ofNat
  | '-' :: rest => (digitsToNat rest).map (fun n => -(n : Int))
  | cs => (digitsToNat cs).map Int.ofNat

/-- Models `zerolog.ParseLevel` (`zerolog/log.go`): case-insensitive comparison with
each level's marshalled name — in source order trace, debug, info, warn,
error, fatal, panic, disabled, nolevel — then a numeric fallback bounded to
`TraceLevel..Disabled` (`-1..7`).  `NoLevel.String()` is the EMPTY string, so
the empty string parses successfully to `NoLevel` (6) with no error. -/
def ParseLevel (s : String) : Except String Int :=
  if equalFold s "trace" then .ok (-1)
  else if equalFold s "debug" then .ok 0
  else if equalFold s "info" then .ok 1
  else if equalFold s "warn" then .ok 2
  else if equalFold s "error" then .ok 3
  else if equalFold s "fatal" then .ok 4
  else if equalFold s "panic" then .ok 5
  else if equalFold s "disabled" then .ok 7
  else if equalFold s "" then .ok 6
  else
    match goAtoi s with
    | none => .error "Unknown Level String"
    | some i =>
      if i > 7 ∨ i < -1 then .error "Out-Of-Bound Level"
      else .ok i

/-- The level part of `Init` (logging.go:85-89): parse the configured level,
defaulting to `InfoLevel` (1) only when `ParseLevel` returns an error, then
`zerolog.SetGlobalLevel`. -/
def initLevel (levelStr : String) : Int :=
  match ParseLevel levelStr with
  | .ok l => l
  | .error _ => 1

/-- The globally observable configuration `Init` (logging.go:82-144)
installs: the zerolog global level and the sink fan-out of the writer behind
the new global logger.  `Init` is a total function of its options — it has no
failure path. -/
structure InitState where
  globalLevel : Int
  sinks : List Sink
deriving DecidableEq, Repr

/-- See `InitState`. -/
def Init (opt : Options) : InitState :=
  ⟨initLevel opt.level, initSinks opt⟩

/-- Sorted insertion into an assoc list with unique keys: the Go map
`m[k] = v` (overwrite), with the list kept in the sorted key order in which
zerolog's `appendFields` will iterate the map. -/
def mapInsert : List (String × GoVal) → String → GoVal → List (String × GoVal)
  | [], k, v => [(k, v)]
  | (k', v') :: rest, k, v =>
    if k = k' then (k, v) :: rest
    else if k < k' then (k, v) :: (k', v') :: rest
    else (k', v') :: mapInsert rest k v

/-- The loop of `kvToMap` (logging.go:225-235): `for i := 0; i+1 < len(kv);
i += 2`, skipping the whole pair when `kv[i]` is not a string; a trailing
unpaired element never enters the loop. -/
def kvToMapAux : List (String × GoVal) → List GoVal → List (String × GoVal)
  | m, GoVal.str k :: v :: rest => kvToMapAux (mapInsert m k v) rest
  | m, _ :: _ :: rest => kvToMapAux m rest
  | m, _ => m

/-- Models `kvToMap(kv...)` (logging.go:225-235). -/
def kvToMap (kv : List GoVal) : List (String × GoVal) :=
  kvToMapAux [] kv

/-- Models `With(kv...)` (logging.go:147-149): a child of the global logger `g` with
the extra fields. -/
def With (g : ZLogger) (kv : List GoVal) : ZLogger :=
  g.withFields (kvToMap kv)

/-- Models `IntoContext(ctx, kv...)` (logging.go:152-160): if `log.Ctx(ctx)` is
non-nil (it always is) and not the disabled logger, merge the fields into it;
otherwise merge them into the global logger `g`; store the result with
`WithContext`. -/
def IntoContext (g : ZLogger) (ctx : Context) (kv : List GoVal) : Context :=
  let fields := kvToMap kv
  match logCtx ctx with
  | some base =>
    if base.level ≠ 7 then (base.withFields fields).withContext ctx
    else (g.withFields fields).withContext ctx
  | none => (g.withFields fields).withContext ctx

/-- Models `WithRequestID` (logging.go:179-181). -/
def WithRequestID (g : ZLogger) (ctx : Context) (reqID : String) : Context :=
  IntoContext g (ctx.withValue (CtxKey.slog "request_id") (GoVal.str reqID))
    [GoVal.str "request_id", GoVal.str reqID]

/-- Models `WithAPIID` (logging.go:182-184). -/
def WithAPIID (g : ZLogger) (ctx : Context) (apiID : String) : Context :=
  IntoContext g (ctx.withValue (CtxKey.slog "api_id") (GoVal.str apiID))
    [GoVal.str "api_id", GoVal.str apiID]

/-- Models `WithOperatorName` (logging.go:185-187). -/
def WithOperatorName (g : ZLogger) (ctx : Context) (operatorID : String) :
    Context :=
  IntoContext g
    (ctx.withValue (CtxKey.slog "operator_name") (GoVal.str operatorID))
    [GoVal.str "operator_name", GoVal.str operatorID]

/-- Models `WithRole` (logging.go:188-190); the role value is an arbitrary `any`. -/
def WithRole (g : ZLogger) (ctx : Context) (role : GoVal) : Context :=
  IntoContext g (ctx.withValue (CtxKey.slog "role") role)
    [GoVal.str "role", role]

/-- Models `WithTraceID` (logging.go:191-193). -/
def WithTraceID (g : ZLogger) (ctx : Context) (traceID : String) : Context :=
  IntoContext g (ctx.withValue (CtxKey.slog "trace_id") (GoVal.str traceID))
    [GoVal.str "trace_id", GoVal.str traceID]

/-- Models `WithIPAddress` (logging.go:194-196). -/
def WithIPAddress (g : ZLogger) (ctx : Context) (ipAddress : String) :
    Context :=
  IntoContext g (ctx.withValue (CtxKey.slog "ip_address") (GoVal.str ipAddress))
    [GoVal.str "ip_address", GoVal.str ipAddress]

/-- Models `RequestID(ctx)` (logging.go:198-203), on a non-nil context. -/
def RequestID (ctx : Context) : String :=
  match ctx.value (CtxKey.slog "request_id") with
  | some (GoVal.str v) => v
  | _ => ""

/-- Models `OperatorID(ctx)` (logging.go:205-210), on a non-nil context. -/
def OperatorID (ctx : Context) : String :=
  match ctx.value (CtxKey.slog "operator_name") with
  | some (GoVal.str v) => v
  | _ => ""

/-- Models `Role(ctx)` (logging.go:212-214), on a non-nil context: `ctx.Value`
returns the stored `any` unchanged, or Go `nil` when the key is absent. -/
def Role (ctx : Context) : GoVal :=
  (ctx.value (CtxKey.slog "role")).getD GoVal.nilv

/-- Models `TraceID(ctx)` (logging.go:216-221), on a non-nil context. -/
def TraceID (ctx : Context) : String :=
  match ctx.value (CtxKey.slog "trace_id") with
  | some (GoVal.str v) => v
  | _ => ""

/-- The observable outcome of calling a Go function: a normal return or a
runtime panic. -/
inductive GoResult (α : Type) where
  | ok : α → GoResult α
  | panicked : GoResult α
deriving DecidableEq, Repr

/-- Models `RequestID` on a possibly-nil `context.Context`: the body immediately
calls `ctx.Value(...)`, which on a nil interface is a nil-pointer dereference
— a runtime panic.  There is no nil guard (contrast `From`,
logging.go:165). -/
def requestIDGo : Option Context → GoResult String
  | none => .panicked
  | some ctx => .ok (RequestID ctx)

/-- Models `OperatorID` on a possibly-nil context; see `requestIDGo`. -/
def operatorIDGo : Option Context → GoResult String
  | none => .panicked
  | some ctx => .ok (OperatorID ctx)

/-- Models `Role` on a possibly-nil context; see `requestIDGo`. -/
def roleGo : Option Context → GoResult GoVal
  | none => .panicked
  | some ctx => .ok (Role ctx)

/-- Models `TraceID` on a possibly-nil context; see `requestIDGo`. -/
def traceIDGo : Option Context → GoResult String
  | none => .panicked
  | some ctx => .ok (TraceID ctx)

/-- Last-occurrence field lookup on a bound-field list: zerolog renders bound
fields in append order into the event's JSON object, so for a consumer the
effective value of key `k` is the LAST entry with that key. -/
def lookupField : List (String × GoVal) → String → Option GoVal
  | [], _ => none
  | (k', v) :: rest, k =>
    match lookupField rest k with
    | some w => some w
    | none => if k' = k then some v else none

/-- The logger `IntoContext` merges new fields into: the logger already stored
in `ctx` when there is one and it is not disabled, otherwise the global
logger `g`. -/
def baseOf (g : ZLogger) (ctx : Context) : ZLogger :=
  match ctx.zerologLogger with
  | some b => if b.level ≠ 7 then b else g
  | none => g

/-- One call to one of the six field setters, for stating order-independence:
the constructor is the setter, the argument its value. -/
inductive Setter where
  | requestID (v : String)
  | apiID (v : String)
  | operatorName (v : String)
  | role (v : GoVal)
  | traceID (v : String)
  | ipAddress (v : String)
deriving DecidableEq, Repr

/-- The key under which a setter stores its value — identical, for all six
setters, as the `ctxKey` string and as the logger field name. -/
def Setter.keyName : Setter → String
  | .requestID _ => "request_id"
  | .apiID _ => "api_id"
  | .operatorName _ => "operator_name"
  | .role _ => "role"
  | .traceID _ => "trace_id"
  | .ipAddress _ => "ip_address"

/-- The value a setter stores (strings are stored as Go strings; the role
setter stores its `any` unchanged). -/
def Setter.goVal : Setter → GoVal
  | .requestID v => GoVal.str v
  | .apiID v => GoVal.str v
  | .operatorName v => GoVal.str v
  | .role v => v
  | .traceID v => GoVal.str v
  | .ipAddress v => GoVal.str v

/-- Apply one setter call to a context. -/
def applySetter (g : ZLogger) (ctx : Context) : Setter → Context
  | .requestID v => WithRequestID g ctx v
  | .apiID v => WithAPIID g ctx v
  | .operatorName v => WithOperatorName g ctx v
  | .role v => WithRole g ctx v
  | .traceID v => WithTraceID g ctx v
  | .ipAddress v => WithIPAddress g ctx v

/-- Apply a sequence of setter calls left to right. -/
def applySetters (g : ZLogger) : List Setter → Context → Context
  | [], ctx => ctx
  | s :: rest, ctx => applySetters g rest (applySetter g ctx s)

/-- The logger-field entries a setter sequence appends, in call order. -/
def setterEntries (l : List Setter) : List (String × GoVal) :=
  l.map (fun s => (s.keyName, s.goVal))

/-- A configuration with no file path but a non-nil extra writer: the
configuration on which `Init` silently ignores the extra writer. -/
def extraOnlyOpts : Options :=
  { service := "", environment := "", pretty := false, level := "",
    withCaller := false, sampleEvery := 0, filePath := "", maxSizeMB := 0,
    maxBackups := 0, maxAgeDays := 0, compress := false, alsoStdout := false,
    extraWriter := true }

/-- A configuration with both a file path and a non-nil extra writer. -/
def fileExtraOpts : Options :=
  { service := "", environment := "", pretty := false, level := "",
    withCaller := false, sampleEvery := 0, filePath := "x.log", maxSizeMB := 0,
    maxBackups := 0, maxAgeDays := 0, compress := false, alsoStdout := false,
    extraWriter := true }

/-- A file-sink configuration with out-of-range rotation numbers (zero size
limit, negative backup and age counts). -/
def clampOpts : Options :=
  { service := "", environment := "", pretty := false, level := "",
    withCaller := false, sampleEvery := 0, filePath := "x.log",
    maxSizeMB := 0, maxBackups := -3, maxAgeDays := -2, compress := false,
    alsoStdout := false, extraWriter := false }

/-! ### Helper lemmas -/

theorem withFields_nil (l : ZLogger) : l.withFields [] = l := by
  cases l with
  | mk lvl fs => simp [ZLogger.withFields]

theorem withFields_append (l : ZLogger) (a b : List (String × GoVal)) :
    (l.withFields a).withFields b = l.withFields (a ++ b) := by
  simp [ZLogger.withFields]

theorem withContext_value (l : ZLogger) (c : Context) (κ : CtxKey) :
    (l.withContext c).value κ = c.value κ := by
  unfold ZLogger.withContext
  split
  · rfl
  · rfl

theorem intoContext_value (g : ZLogger) (ctx : Context) (kv : List GoVal)
    (κ : CtxKey) : (IntoContext g ctx kv).value κ = ctx.value κ := by
  simp only [IntoContext]
  split
  · split
    · exact withContext_value ..
    · exact withContext_value ..
  · exact withContext_value ..

theorem baseOf_withValue (g : ZLogger) (ctx : Context) (k : CtxKey)
    (v : GoVal) : baseOf g (ctx.withValue k v) = baseOf g ctx := rfl

theorem baseOf_level_ne (g : ZLogger) (ctx : Context) (hg : g.level ≠ 7) :
    (baseOf g ctx).level ≠ 7 := by
  unfold baseOf
  split
  · split
    · assumption
    · exact hg
  · exact hg

theorem intoContext_eq (g : ZLogger) (ctx : Context) (kv : List GoVal)
    (hg : g.level ≠ 7) :
    IntoContext g ctx kv
      = Context.withLogger ctx ((baseOf g ctx).withFields (kvToMap kv)) := by
  simp only [IntoContext, logCtx, baseOf]
  cases h : ctx.zerologLogger with
  | none => simp [ZLogger.withContext, ZLogger.withFields, disabledLogger, h, hg]
  | some b =>
    by_cases hb : b.level = 7 <;>
      simp [ZLogger.withContext, ZLogger.withFields, h, hb]

theorem applySetter_eq (g : ZLogger) (ctx : Context) (s : Setter)
    (hg : g.level ≠ 7) :
    applySetter g ctx s
      = Context.withLogger (ctx.withValue (CtxKey.slog s.keyName) s.goVal)
          ((baseOf g ctx).withFields [(s.keyName, s.goVal)]) := by
  cases s <;> exact intoContext_eq g _ _ hg

theorem applySetter_value (g : ZLogger) (ctx : Context) (s : Setter)
    (κ : CtxKey) :
    (applySetter g ctx s).value κ
      = if CtxKey.slog s.keyName = κ then some s.goVal else ctx.value κ := by
  cases s <;> exact intoContext_value g _ _ κ

theorem lookupField_append :
    ∀ (a b : List (String × GoVal)) (k : String),
      lookupField (a ++ b) k
        = match lookupField b k with
          | some w => some w
          | none => lookupField a k
  | [], b, k => by cases h : lookupField b k <;> simp [lookupField, h]
  | (k', v) :: a, b, k => by
    simp only [List.cons_append, lookupField, List.append_eq]
    rw [lookupField_append a b k]
    cases lookupField b k with
    | some w => rfl
    | none => rfl

theorem lookupField_perm :
    ∀ {a b : List (String × GoVal)}, a.Perm b →
      (a.map Prod.fst).Nodup → ∀ k, lookupField a k = lookupField b k := by
  intro a b p
  induction p with
  | nil => intro _ _; rfl
  | cons x p ih =>
    intro nd k
    obtain ⟨kx, vx⟩ := x
    have nd' := nd.of_cons
    simp only [lookupField]
    rw [ih nd' k]
  | swap x y l =>
    intro nd k
    obtain ⟨kx, vx⟩ := x
    obtain ⟨ky, vy⟩ := y
    have hne : ky ≠ kx := by
      simp only [List.map_cons, List.nodup_cons, List.mem_cons] at nd
      exact fun h => nd.1 (Or.inl h)
    simp only [lookupField]
    cases h : lookupField l k with
    | some w => rfl
    | none =>
      by_cases hx : kx = k
      · by_cases hy : ky = k
        · exact absurd (hy.trans hx.symm) hne
        · simp [hx, hy]
      · by_cases hy : ky = k <;> simp [hx, hy]
  | trans p q ih₁ ih₂ =>
    intro nd k
    rw [ih₁ nd k, ih₂ ((p.map Prod.fst).nodup_iff.mp nd) k]

theorem lookupField_last (a : List (String × GoVal)) (k : String) (v : GoVal) :
    lookupField (a ++ [(k, v)]) k = some v := by
  rw [lookupField_append]
  simp [lookupField]

theorem lookupField_last_ne (a : List (String × GoVal)) (k k' : String)
    (v : GoVal) (h : k' ≠ k) : lookupField (a ++ [(k, v)]) k' = lookupField a k' := by
  rw [lookupField_append]
  simp [lookupField, Ne.symm h]

theorem baseOf_withLogger (g : ZLogger) (c : Context) (l : ZLogger)
    (h : l.level ≠ 7) : baseOf g (Context.withLogger c l) = l := by
  simp [baseOf, Context.zerologLogger, h]

theorem applySetters_value (g : ZLogger) :
    ∀ (l : List Setter) (ctx : Context) (n : String),
      (applySetters g l ctx).value (CtxKey.slog n)
        = match lookupField (setterEntries l) n with
          | some v => some v
          | none => ctx.value (CtxKey.slog n)
  | [], ctx, n => rfl
  | s :: rest, ctx, n => by
    show (applySetters g rest (applySetter g ctx s)).value _ = _
    rw [applySetters_value g rest (applySetter g ctx s) n, applySetter_value]
    simp only [setterEntries, List.map_cons, lookupField]
    cases h : lookupField (List.map (fun s => (s.keyName, s.goVal)) rest) n with
    | some v => rfl
    | none =>
      by_cases hk : s.keyName = n
      · simp [hk]
      · simp [hk]

theorem baseOf_applySetter (g : ZLogger) (ctx : Context) (s : Setter)
    (hg : g.level ≠ 7) :
    baseOf g (applySetter g ctx s)
      = (baseOf g ctx).withFields [(s.keyName, s.goVal)] := by
  rw [applySetter_eq g ctx s hg]
  exact baseOf_withLogger g _ _ (baseOf_level_ne g ctx hg)

theorem applySetters_baseOf (g : ZLogger) (hg : g.level ≠ 7) :
    ∀ (l : List Setter) (ctx : Context),
      baseOf g (applySetters g l ctx)
        = (baseOf g ctx).withFields (setterEntries l)
  | [], ctx => (withFields_nil _).symm
  | s :: rest, ctx => by
    show baseOf g (applySetters g rest (applySetter g ctx s)) = _
    rw [applySetters_baseOf g hg rest (applySetter g ctx s),
      baseOf_applySetter g ctx s hg, withFields_append]
    rfl

theorem applySetters_stored (g : ZLogger) (hg : g.level ≠ 7) :
    ∀ (l : List Setter) (ctx : Context), l ≠ [] →
      (applySetters g l ctx).zerologLogger
        = some (baseOf g (applySetters g l ctx))
  | [], _, h => absurd rfl h
  | [s], ctx, _ => by
    show (applySetter g ctx s).zerologLogger
      = some (baseOf g (applySetter g ctx s))
    rw [applySetter_eq g ctx s hg,
      baseOf_withLogger g (ctx.withValue (CtxKey.slog s.keyName) s.goVal)
        ((baseOf g ctx).withFields [(s.keyName, s.goVal)])
        (baseOf_level_ne g ctx hg)]
    rfl
  | s :: s' :: rest, ctx, _ =>
    applySetters_stored g hg (s' :: rest) (applySetter g ctx s) (by simp)

theorem from_resolve_stored (g : ZLogger) (c : Context) (b : ZLogger)
    (h : c.zerologLogger = some b) : (From (some c)).resolve g = b := by
  simp [From, logCtx, h, FromResult.resolve]

theorem applySetters_resolve (g : ZLogger) (hg : g.level ≠ 7) (l : List Setter)
    (ctx : Context) (hl : l ≠ []) :
    (From (some (applySetters g l ctx))).resolve g
      = (baseOf g ctx).withFields (setterEntries l) := by
  rw [from_resolve_stored g _ _ (applySetters_stored g hg l ctx hl),
    applySetters_baseOf g hg l ctx]

theorem kvToMapAux_nonstr (m : List (String × GoVal)) (k v : GoVal)
    (rest : List GoVal) (hk : k.isStr = false) :
    kvToMapAux m (k :: v :: rest) = kvToMapAux m rest := by
  cases k <;> first | rfl | simp [GoVal.isStr] at hk

theorem kvToMapAux_odd :
    ∀ (l : List GoVal) (m : List (String × GoVal)), l.length % 2 = 1 →
      kvToMapAux m l = kvToMapAux m l.dropLast
  | [], _, h => by simp at h
  | [x], m, _ => by cases x <;> rfl
  | [_, _], _, h => by simp at h
  | x :: y :: z :: rest, m, h => by
    have hr : (z :: rest).length % 2 = 1 := by
      simp only [List.length_cons] at h ⊢
      omega
    cases x with
    | str s => exact kvToMapAux_odd (z :: rest) (mapInsert m s y) hr
    | nilv => exact kvToMapAux_odd (z :: rest) m hr
    | int i => exact kvToMapAux_odd (z :: rest) m hr
    | boolv b => exact kvToMapAux_odd (z :: rest) m hr
    | errv e => exact kvToMapAux_odd (z :: rest) m hr

/-! ### Claim theorems -/

/-- C7: `From(nil)` returns the process-wide global logger (`&log.Logger`)
and never fails or panics — the nil guard at logging.go:165 is the first
statement of `From`, and the function is total. -/
theorem from_nil_global : From none = FromResult.globalRef := rfl

/-- C1 (code bug): on a non-nil context that carries no attached logger and
no correlation fields — `context.Background()` — `From` does NOT return the
process-wide global logger.  `log.Ctx` never returns nil (it returns
zerolog's `disabledLogger`, level 7), so the nil test at logging.go:168
always succeeds and `From` returns the disabled logger, which suppresses
every event (an info event is not emitted even at global level info),
whereas the global logger built by `Init` (level trace = -1) would emit it.
This contradicts the function's own comment "falls back to global" and makes
the fallback at logging.go:175 dead code. -/
theorem from_plain_context_not_global :
    From (some Context.background) = FromResult.ctxLogger disabledLogger
    ∧ From (some Context.background) ≠ FromResult.globalRef
    ∧ disabledLogger.level = 7
    ∧ shouldEmit 1 disabledLogger.level 1 = false
    ∧ shouldEmit 1 (-1) 1 = true := by
  refine ⟨rfl, by decide, rfl, by decide, by decide⟩

/-- C2 counterexample: `Logger.Info` attaches the `x-operator` correlation
field as well, so its field set is not only request ID and API ID. -/
theorem legacy_info_attaches_operator :
    ("x-operator", GoVal.str "op") ∈ Logger.InfoFields ⟨"r", "a", "op"⟩
    ∧ (Logger.InfoFields ⟨"r", "a", "op"⟩).map Prod.fst
        ≠ ["X-Request-ID", "api_id"] := by
  refine ⟨by decide, by decide⟩

/-- C2 (amended): the legacy emission methods attach exactly the request ID,
API ID, and operator fields (`Logger.Info`), plus an error object
(`Logger.Error`), and no other field. -/
theorem legacy_emission_fields (l : Logger) (e : String) :
    (l.InfoFields).map Prod.fst = ["X-Request-ID", "api_id", "x-operator"]
    ∧ (l.ErrorFields e).map Prod.fst
        = ["X-Request-ID", "api_id", "x-operator", "error"] :=
  ⟨rfl, rfl⟩

/-- C3 counterexample: with an empty `FilePath` and a non-nil `ExtraWriter`,
`Init` sends events to standard output only — the extra writer receives
nothing, although the claim promises fan-out alongside the default
standard-output sink. -/
theorem extra_writer_ignored_without_file :
    extraOnlyOpts.extraWriter = true
    ∧ (Init extraOnlyOpts).sinks = [Sink.stdout]
    ∧ Sink.extra ∉ (Init extraOnlyOpts).sinks := by
  refine ⟨rfl, by decide, by decide⟩

/-- C3 (amended): the extra writer is fanned out exactly when `FilePath` is
also non-empty; with an empty `FilePath` the only sink is standard output and
`ExtraWriter` is ignored. -/
theorem extra_writer_fanout_iff (opt : Options) :
    (Sink.extra ∈ (Init opt).sinks ↔ opt.extraWriter = true ∧ opt.filePath ≠ "")
    ∧ ((Init opt).sinks = [Sink.stdout] ↔ opt.filePath = "") := by
  by_cases hf : opt.filePath = "" <;>
    by_cases ha : opt.alsoStdout = true <;>
      by_cases he : opt.extraWriter = true <;>
        simp [Init, initSinks, hf, ha, he]

/-- C3 witness: the amended statement at the concrete configuration
`fileExtraOpts` (file path set, extra writer present). -/
theorem extra_writer_fanout_iff_witness :
    (Sink.extra ∈ (Init fileExtraOpts).sinks
      ↔ fileExtraOpts.extraWriter = true ∧ fileExtraOpts.filePath ≠ "")
    ∧ ((Init fileExtraOpts).sinks = [Sink.stdout]
      ↔ fileExtraOpts.filePath = "") :=
  extra_writer_fanout_iff fileExtraOpts

/-- C5 counterexample: the empty (missing) `Level` string is parsed
successfully by `zerolog.ParseLevel` as `NoLevel` (6) — `NoLevel.String()` is
the empty string — so `Init` sets the global level to 6, not to info (1),
and info events are then suppressed, not emitted. -/
theorem init_empty_level_not_info :
    initLevel "" = 6
    ∧ initLevel "" ≠ 1
    ∧ shouldEmit 1 (-1) (initLevel "") = false := by
  refine ⟨by decide, by decide, by decide⟩

/-- C5 (amended): `Init` never fails; for every `Level` string REJECTED by
`zerolog.ParseLevel` the global minimum severity becomes info (1), so info
events are emitted and debug events suppressed; the empty string, however, is
accepted by `ParseLevel` as `NoLevel` and yields global level 6. -/
theorem init_unparseable_level_info (s msg : String)
    (h : ParseLevel s = Except.error msg) :
    initLevel s = 1
    ∧ shouldEmit 1 (-1) (initLevel s) = true
    ∧ shouldEmit 0 (-1) (initLevel s) = false
    ∧ initLevel "" = 6 := by
  have h1 : initLevel s = 1 := by simp [initLevel, h]
  refine ⟨h1, by rw [h1]; decide, by rw [h1]; decide, by decide⟩

/-- C5 witness: the amended statement at the unparseable level string
`bogus`. -/
theorem init_unparseable_level_info_witness :
    ParseLevel "bogus" = Except.error "Unknown Level String"
    ∧ (initLevel "bogus" = 1
      ∧ shouldEmit 1 (-1) (initLevel "bogus") = true
      ∧ shouldEmit 0 (-1) (initLevel "bogus") = false
      ∧ initLevel "" = 6) :=
  ⟨rfl, init_unparseable_level_info "bogus" "Unknown Level String" rfl⟩

/-- C10: when `Init` configures a rotating file sink, the parameters handed
to `lumberjack.Logger` are clamped: the size limit is `max 1 MaxSizeMB`
(at least 1 MB), and backups and age are `max 0 _` (never negative). -/
theorem init_rotation_clamped (opt : Options) (h : opt.filePath ≠ "") :
    (Init opt).sinks.head?
      = some (Sink.rotatingFile opt.filePath (max 1 opt.maxSizeMB)
          (max 0 opt.maxBackups) (max 0 opt.maxAgeDays) opt.compress)
    ∧ 1 ≤ max 1 opt.maxSizeMB
    ∧ 0 ≤ max 0 opt.maxBackups
    ∧ 0 ≤ max 0 opt.maxAgeDays := by
  refine ⟨?_, le_max_left 1 _, le_max_left 0 _, le_max_left 0 _⟩
  simp only [Init, initSinks]
  rw [if_pos h]
  split
  · rfl
  · split
    · rfl
    · split
      · rfl
      · rfl

/-- C10 witness: the clamping at `clampOpts` (zero size limit, negative
backup and age counts). -/
theorem init_rotation_clamped_witness :
    clampOpts.filePath ≠ ""
    ∧ ((Init clampOpts).sinks.head?
        = some (Sink.rotatingFile clampOpts.filePath
            (max 1 clampOpts.maxSizeMB) (max 0 clampOpts.maxBackups)
            (max 0 clampOpts.maxAgeDays) clampOpts.compress)
      ∧ 1 ≤ max 1 clampOpts.maxSizeMB
      ∧ 0 ≤ max 0 clampOpts.maxBackups
      ∧ 0 ≤ max 0 clampOpts.maxAgeDays) :=
  ⟨by decide, init_rotation_clamped clampOpts (by decide)⟩

/-- C6: `With` never fails; a pair whose key is not a string is dropped
whole, a trailing unpaired key is dropped, and
`With("a", 1, "b")` yields exactly the field set `{a: 1}` (on top of the
global logger's own bound fields). -/
theorem with_drops_malformed (g : ZLogger) (k v : GoVal)
    (rest kv : List GoVal) (hk : k.isStr = false)
    (hodd : kv.length % 2 = 1) :
    With g (k :: v :: rest) = With g rest
    ∧ With g kv = With g kv.dropLast
    ∧ With g [GoVal.str "a", GoVal.int 1, GoVal.str "b"]
        = g.withFields [("a", GoVal.int 1)] := by
  refine ⟨?_, ?_, rfl⟩
  · simp only [With, kvToMap]
    rw [kvToMapAux_nonstr [] k v rest hk]
  · simp only [With, kvToMap]
    rw [kvToMapAux_odd kv [] hodd]

/-- C6 witness: a non-string key pair and the odd-length list
`["a", 1, "b"]`, against an empty global logger. -/
theorem with_drops_malformed_witness :
    (GoVal.int 9).isStr = false
    ∧ ([GoVal.str "a", GoVal.int 1, GoVal.str "b"] : List GoVal).length % 2 = 1
    ∧ (With ⟨-1, []⟩ (GoVal.int 9 :: GoVal.str "z" :: []) = With ⟨-1, []⟩ []
      ∧ With ⟨-1, []⟩ [GoVal.str "a", GoVal.int 1, GoVal.str "b"]
          = With ⟨-1, []⟩ ([GoVal.str "a", GoVal.int 1, GoVal.str "b"]).dropLast
      ∧ With ⟨-1, []⟩ [GoVal.str "a", GoVal.int 1, GoVal.str "b"]
          = ZLogger.withFields ⟨-1, []⟩ [("a", GoVal.int 1)]) :=
  ⟨rfl, rfl, with_drops_malformed ⟨-1, []⟩ (GoVal.int 9) (GoVal.str "z") []
    [GoVal.str "a", GoVal.int 1, GoVal.str "b"] rfl rfl⟩

/-- C8 counterexample: on a nil context every accessor panics — the body
calls `ctx.Value` on a nil interface (a nil-pointer dereference) with no nil
guard — contradicting the claim that they never panic including on nil. -/
theorem accessors_nil_panic :
    requestIDGo none = GoResult.panicked
    ∧ operatorIDGo none = GoResult.panicked
    ∧ roleGo none = GoResult.panicked
    ∧ traceIDGo none = GoResult.panicked :=
  ⟨rfl, rfl, rfl, rfl⟩

/-- C8 (amended): on every NON-nil context the accessors return normally and
never panic; when the key is absent they return the empty string (`Role`:
nil), and when it holds a value of an unexpected (non-string) type the
string accessors return the empty string.  On a nil context they panic. -/
theorem accessors_nonnil_total (ctx : Context) (w : GoVal)
    (hw : w.isStr = false) :
    requestIDGo (some ctx) = GoResult.ok (RequestID ctx)
    ∧ operatorIDGo (some ctx) = GoResult.ok (OperatorID ctx)
    ∧ roleGo (some ctx) = GoResult.ok (Role ctx)
    ∧ traceIDGo (some ctx) = GoResult.ok (TraceID ctx)
    ∧ RequestID Context.background = ""
    ∧ OperatorID Context.background = ""
    ∧ TraceID Context.background = ""
    ∧ Role Context.background = GoVal.nilv
    ∧ RequestID (ctx.withValue (CtxKey.slog "request_id") w) = ""
    ∧ OperatorID (ctx.withValue (CtxKey.slog "operator_name") w) = ""
    ∧ TraceID (ctx.withValue (CtxKey.slog "trace_id") w) = "" := by
  refine ⟨rfl, rfl, rfl, rfl, rfl, rfl, rfl, rfl, ?_, ?_, ?_⟩
  all_goals cases w <;> first | rfl | simp [GoVal.isStr] at hw

/-- C8 witness: the amended statement at `context.Background()` with the
non-string value `3` stored under each key. -/
theorem accessors_nonnil_total_witness :
    (GoVal.int 3).isStr = false
    ∧ (requestIDGo (some Context.background)
        = GoResult.ok (RequestID Context.background)
      ∧ operatorIDGo (some Context.background)
        = GoResult.ok (OperatorID Context.background)
      ∧ roleGo (some Context.background)
        = GoResult.ok (Role Context.background)
      ∧ traceIDGo (some Context.background)
        = GoResult.ok (TraceID Context.background)
      ∧ RequestID Context.background = ""
      ∧ OperatorID Context.background = ""
      ∧ TraceID Context.background = ""
      ∧ Role Context.background = GoVal.nilv
      ∧ RequestID (Context.background.withValue (CtxKey.slog "request_id")
          (GoVal.int 3)) = ""
      ∧ OperatorID (Context.background.withValue (CtxKey.slog "operator_name")
          (GoVal.int 3)) = ""
      ∧ TraceID (Context.background.withValue (CtxKey.slog "trace_id")
          (GoVal.int 3)) = "") :=
  ⟨rfl, accessors_nonnil_total Context.background (GoVal.int 3) rfl⟩

/-- C4: each field setter round-trips with its dedicated accessor —
`RequestID (WithRequestID ctx v) = v`, `OperatorID (WithOperatorName ctx v)
= v`, `TraceID (WithTraceID ctx v) = v`, `Role (WithRole ctx v) = v` — and
the logger `From` derives from the resulting context carries that field with
value `v` (as its last, hence effective, bound field).  The hypothesis that
the global logger is not disabled holds for every logger `Init` installs
(`zerolog.New` loggers have level trace). -/
theorem setter_accessor_roundtrip (g : ZLogger) (ctx : Context) (v : String)
    (rv : GoVal) (hg : g.level ≠ 7) :
    RequestID (WithRequestID g ctx v) = v
    ∧ OperatorID (WithOperatorName g ctx v) = v
    ∧ TraceID (WithTraceID g ctx v) = v
    ∧ Role (WithRole g ctx rv) = rv
    ∧ lookupField ((From (some (WithRequestID g ctx v))).resolve g).fields
        "request_id" = some (GoVal.str v)
    ∧ lookupField ((From (some (WithOperatorName g ctx v))).resolve g).fields
        "operator_name" = some (GoVal.str v)
    ∧ lookupField ((From (some (WithTraceID g ctx v))).resolve g).fields
        "trace_id" = some (GoVal.str v)
    ∧ lookupField ((From (some (WithRole g ctx rv))).resolve g).fields
        "role" = some rv := by
  have hstore : ∀ s : Setter,
      (From (some (applySetter g ctx s))).resolve g
        = (baseOf g ctx).withFields [(s.keyName, s.goVal)] := by
    intro s
    rw [applySetter_eq g ctx s hg]
    exact from_resolve_stored g _ _ rfl
  refine ⟨?_, ?_, ?_, ?_, ?_, ?_, ?_, ?_⟩
  · show RequestID (applySetter g ctx (Setter.requestID v)) = v
    rw [RequestID, applySetter_value]
    simp [Setter.keyName, Setter.goVal]
  · show OperatorID (applySetter g ctx (Setter.operatorName v)) = v
    rw [OperatorID, applySetter_value]
    simp [Setter.keyName, Setter.goVal]
  · show TraceID (applySetter g ctx (Setter.traceID v)) = v
    rw [TraceID, applySetter_value]
    simp [Setter.keyName, Setter.goVal]
  · show Role (applySetter g ctx (Setter.role rv)) = rv
    rw [Role, applySetter_value]
    simp [Setter.keyName, Setter.goVal]
  · show lookupField
        ((From (some (applySetter g ctx (Setter.requestID v)))).resolve g).fields
        "request_id" = some (GoVal.str v)
    rw [hstore]
    exact lookupField_last _ _ _
  · show lookupField
        ((From (some (applySetter g ctx (Setter.operatorName v)))).resolve
          g).fields "operator_name" = some (GoVal.str v)
    rw [hstore]
    exact lookupField_last _ _ _
  · show lookupField
        ((From (some (applySetter g ctx (Setter.traceID v)))).resolve g).fields
        "trace_id" = some (GoVal.str v)
    rw [hstore]
    exact lookupField_last _ _ _
  · show lookupField
        ((From (some (applySetter g ctx (Setter.role rv)))).resolve g).fields
        "role" = some rv
    rw [hstore]
    exact lookupField_last _ _ _

/-- C4 witness: the round-trip at `context.Background()`, value `v1`, role
value `5`, with a trace-level empty global logger. -/
theorem setter_accessor_roundtrip_witness :
    (ZLogger.level ⟨-1, []⟩ ≠ 7)
    ∧ (RequestID (WithRequestID ⟨-1, []⟩ Context.background "v1") = "v1"
      ∧ OperatorID (WithOperatorName ⟨-1, []⟩ Context.background "v1") = "v1"
      ∧ TraceID (WithTraceID ⟨-1, []⟩ Context.background "v1") = "v1"
      ∧ Role (WithRole ⟨-1, []⟩ Context.background (GoVal.int 5)) = GoVal.int 5
      ∧ lookupField ((From (some (WithRequestID ⟨-1, []⟩ Context.background
          "v1"))).resolve ⟨-1, []⟩).fields "request_id"
          = some (GoVal.str "v1")
      ∧ lookupField ((From (some (WithOperatorName ⟨-1, []⟩ Context.background
          "v1"))).resolve ⟨-1, []⟩).fields "operator_name"
          = some (GoVal.str "v1")
      ∧ lookupField ((From (some (WithTraceID ⟨-1, []⟩ Context.background
          "v1"))).resolve ⟨-1, []⟩).fields "trace_id"
          = some (GoVal.str "v1")
      ∧ lookupField ((From (some (WithRole ⟨-1, []⟩ Context.background
          (GoVal.int 5)))).resolve ⟨-1, []⟩).fields "role"
          = some (GoVal.int 5)) :=
  ⟨by decide, setter_accessor_roundtrip ⟨-1, []⟩ Context.background "v1"
    (GoVal.int 5) (by decide)⟩

/-- C9: for distinct setters (pairwise different keys), applying them in any
order yields the same accessor results and the same effective field
lookup on the logger `From` derives; moreover a single setter appends its
own field (which becomes the effective value for its key) and leaves the
effective value of every other key of the previously accumulated fields
unchanged. -/
theorem setters_order_independent (g : ZLogger) (ctx : Context)
    (l l' : List Setter) (k : String) (s : Setter) (hg : g.level ≠ 7)
    (hp : l.Perm l') (hnd : (l.map Setter.keyName).Nodup) :
    RequestID (applySetters g l ctx) = RequestID (applySetters g l' ctx)
    ∧ OperatorID (applySetters g l ctx) = OperatorID (applySetters g l' ctx)
    ∧ TraceID (applySetters g l ctx) = TraceID (applySetters g l' ctx)
    ∧ Role (applySetters g l ctx) = Role (applySetters g l' ctx)
    ∧ lookupField ((From (some (applySetters g l ctx))).resolve g).fields k
        = lookupField ((From (some (applySetters g l' ctx))).resolve g).fields
            k
    ∧ lookupField ((From (some (applySetter g ctx s))).resolve g).fields
        s.keyName = some s.goVal
    ∧ (k ≠ s.keyName →
        lookupField ((From (some (applySetter g ctx s))).resolve g).fields k
          = lookupField (baseOf g ctx).fields k) := by
  have hmap : (setterEntries l).map Prod.fst = l.map Setter.keyName := by
    simp [setterEntries]
  have hnd' : ((setterEntries l).map Prod.fst).Nodup := by
    rw [hmap]; exact hnd
  have hlk : ∀ n, lookupField (setterEntries l) n
      = lookupField (setterEntries l') n :=
    lookupField_perm (hp.map _) hnd'
  have hval : ∀ n, (applySetters g l ctx).value (CtxKey.slog n)
      = (applySetters g l' ctx).value (CtxKey.slog n) := by
    intro n
    rw [applySetters_value, applySetters_value, hlk n]
  have hstore : (From (some (applySetter g ctx s))).resolve g
      = (baseOf g ctx).withFields [(s.keyName, s.goVal)] := by
    rw [applySetter_eq g ctx s hg]
    exact from_resolve_stored g _ _ rfl
  refine ⟨?_, ?_, ?_, ?_, ?_, ?_, ?_⟩
  · simp only [RequestID]
    rw [hval "request_id"]
  · simp only [OperatorID]
    rw [hval "operator_name"]
  · simp only [TraceID]
    rw [hval "trace_id"]
  · simp only [Role]
    rw [hval "role"]
  · cases l with
    | nil =>
      have h0 : l' = [] := hp.symm.eq_nil
      rw [h0]
    | cons s₀ rest =>
      have hl' : l' ≠ [] := by
        intro h0
        rw [h0] at hp
        exact absurd hp.eq_nil (by simp)
      rw [applySetters_resolve g hg _ ctx (by simp),
        applySetters_resolve g hg l' ctx hl']
      show lookupField ((baseOf g ctx).fields ++ setterEntries (s₀ :: rest)) k
        = lookupField ((baseOf g ctx).fields ++ setterEntries l') k
      rw [lookupField_append, lookupField_append, hlk k]
  · rw [hstore]
    exact lookupField_last _ _ _
  · intro hk
    rw [hstore]
    show lookupField ((baseOf g ctx).fields ++ [(s.keyName, s.goVal)]) k
      = lookupField (baseOf g ctx).fields k
    exact lookupField_last_ne _ _ _ _ hk

/-- C9 witness: the two orders of `{request_id: r, trace_id: t}` on
`context.Background()` with a trace-level empty global logger, observed at
the key `request_id`, and the single extra setter `api_id: a`. -/
theorem setters_order_independent_witness :
    (ZLogger.level ⟨-1, []⟩ ≠ 7)
    ∧ ([Setter.requestID "r", Setter.traceID "t"].Perm
        [Setter.traceID "t", Setter.requestID "r"])
    ∧ (([Setter.requestID "r", Setter.traceID "t"].map
        Setter.keyName).Nodup)
    ∧ (RequestID (applySetters ⟨-1, []⟩ [Setter.requestID "r",
          Setter.traceID "t"] Context.background)
        = RequestID (applySetters ⟨-1, []⟩ [Setter.traceID "t",
            Setter.requestID "r"] Context.background)
      ∧ OperatorID (applySetters ⟨-1, []⟩ [Setter.requestID "r",
          Setter.traceID "t"] Context.background)
        = OperatorID (applySetters ⟨-1, []⟩ [Setter.traceID "t",
            Setter.requestID "r"] Context.background)
      ∧ TraceID (applySetters ⟨-1, []⟩ [Setter.requestID "r",
          Setter.traceID "t"] Context.background)
        = TraceID (applySetters ⟨-1, []⟩ [Setter.traceID "t",
            Setter.requestID "r"] Context.background)
      ∧ Role (applySetters ⟨-1, []⟩ [Setter.requestID "r",
          Setter.traceID "t"] Context.background)
        = Role (applySetters ⟨-1, []⟩ [Setter.traceID "t",
            Setter.requestID "r"] Context.background)
      ∧ lookupField ((From (some (applySetters ⟨-1, []⟩ [Setter.requestID "r",
          Setter.traceID "t"] Context.background))).resolve ⟨-1, []⟩).fields
          "request_id"
        = lookupField ((From (some (applySetters ⟨-1, []⟩
            [Setter.traceID "t", Setter.requestID "r"]
            Context.background))).resolve ⟨-1, []⟩).fields "request_id"
      ∧ lookupField ((From (some (applySetter ⟨-1, []⟩ Context.background
          (Setter.apiID "a")))).resolve ⟨-1, []⟩).fields
          (Setter.apiID "a").keyName = some (Setter.apiID "a").goVal
      ∧ ("request_id" ≠ (Setter.apiID "a").keyName →
          lookupField ((From (some (applySetter ⟨-1, []⟩ Context.background
            (Setter.apiID "a")))).resolve ⟨-1, []⟩).fields "request_id"
            = lookupField (baseOf ⟨-1, []⟩ Context.background).fields
                "request_id")) :=
  ⟨by decide, List.Perm.swap (Setter.traceID "t") (Setter.requestID "r") [],
    by decide,
    setters_order_independent ⟨-1, []⟩ Context.background
      [Setter.requestID "r", Setter.traceID "t"]
      [Setter.traceID "t", Setter.requestID "r"] "request_id"
      (Setter.apiID "a") (by decide)
      (List.Perm.swap (Setter.traceID "t") (Setter.requestID "r") [])
      (by decide)⟩

end Slogging
